import Mathlib

/-!
Shallow embedding of the Pastebin-Lite backend
(`src/backend/lib/utils.ts`, `src/backend/lib/validation.ts`,
`src/backend/routes/pastes.ts`, `src/backend/routes/cleanup.ts`).

Timestamps are modelled as `Int` epoch milliseconds; JavaScript `Date`
comparisons become integer comparisons.  The database is a list of rows;
Prisma's `findUnique`, `update`, `updateMany` and `deleteMany` become the
corresponding list operations.
-/

namespace Pastebin

/-- A row of the `Paste` table (`prisma` model; fields as used by the code). -/
structure Paste where
  id : String
  content : String
  language : Option String
  createdAt : Int
  expiresAt : Option Int
  maxViews : Option Int
  viewCount : Int
  isExpired : Bool
deriving Repr, DecidableEq

/-- `src/backend/lib/utils.ts` line 18: the custom nanoid alphabet. -/
def ALPHABET : String := "23456789ABCDEFGHJKLMNPQRSTUVWXYZabcdefghjkmnpqrstuvwxyz"

/-- `src/backend/lib/utils.ts` line 19. -/
def ID_LENGTH : Nat := 8

/-- date-fns `isPast(t)`: `t` is strictly before the current time. -/
def isPast (now t : Int) : Bool := t < now

/-- The time-based expiration condition of `utils.ts` `isExpired`
(line 55): `paste.expiresAt && isPast(paste.expiresAt)`. -/
def timeExpired (now : Int) (p : Paste) : Bool :=
  match p.expiresAt with
  | some t => isPast now t
  | none => false

/-- The view-based expiration condition of `utils.ts` `isExpired`
(line 60): `paste.maxViews !== null && paste.viewCount >= paste.maxViews`. -/
def viewLimitReached (p : Paste) : Bool :=
  match p.maxViews with
  | some m => decide (p.viewCount ≥ m)
  | none => false

/-- `utils.ts` `isExpired` (lines 48–65), with the current time explicit. -/
def isExpired (now : Int) (p : Paste) : Bool :=
  if p.isExpired then true
  else if timeExpired now p then true
  else if viewLimitReached p then true
  else false

/-- `utils.ts` `getExpirationReason` (lines 70–84). -/
def getExpirationReason (now : Int) (p : Paste) : Option String :=
  if ¬ isExpired now p then none
  else if timeExpired now p then some "This paste has expired due to time limit"
  else if viewLimitReached p then some "This paste has expired due to view limit"
  else some "This paste has been deleted"

/-- `utils.ts` `calculateRemainingViews` (lines 89–94). -/
def calculateRemainingViews (p : Paste) : Option Int :=
  match p.maxViews with
  | none => none
  | some m => some (max 0 (m - p.viewCount))

/-- `utils.ts` `calculateExpiresAt` (lines 38–43): `addMinutes(new Date(), m)`,
one minute being 60000 ms; `!expiresInMinutes || expiresInMinutes <= 0 → null`. -/
def calculateExpiresAt (now : Int) (expiresInMinutes : Option Int) : Option Int :=
  match expiresInMinutes with
  | none => none
  | some m => if m ≤ 0 then none else some (now + m * 60000)

/-- `utils.ts` line 132: `MAX_CONTENT_SIZE = 500 * 1024`. -/
def MAX_CONTENT_SIZE : Nat := 500 * 1024

/-- Number of UTF-16 code units of a character (JavaScript `String.length`
counts code units). -/
def utf16Size (c : Char) : Nat := if c.val < 0x10000 then 1 else 2

/-- JavaScript `String.length` of a string: total UTF-16 code units. -/
def jsLength (s : String) : Nat := (s.data.map utf16Size).sum

/-- `TextEncoder().encode(s).length`: the UTF-8 byte size of a string. -/
def byteSize (s : String) : Nat := (s.data.map Char.utf8Size).sum

/-- ECMAScript whitespace (WhiteSpace ∪ LineTerminator), the set removed by
`String.prototype.trim`. -/
def isJsWhitespace (c : Char) : Bool :=
  c = ' ' || c = '\t' || c = '\n' || c = '\r' ||
  c.val = 0x0B || c.val = 0x0C || c.val = 0xA0 || c.val = 0x1680 ||
  (0x2000 ≤ c.val && c.val ≤ 0x200A) || c.val = 0x2028 || c.val = 0x2029 ||
  c.val = 0x202F || c.val = 0x205F || c.val = 0x3000 || c.val = 0xFEFF

/-- JavaScript `String.prototype.trim`. -/
def jsTrim (s : String) : String :=
  ⟨((s.data.dropWhile isJsWhitespace).reverse.dropWhile isJsWhitespace).reverse⟩

/-- `utils.ts` `validateContent` (lines 137–151): valid iff the content is
non-empty after trimming and its UTF-8 byte size is at most 500 KiB. -/
def validateContent (content : String) : Bool :=
  if content = "" || (jsTrim content).data.length = 0 then false
  else if byteSize content > MAX_CONTENT_SIZE then false
  else true

/-- `src/backend/lib/validation.ts` `CreatePasteSchema.content`:
`z.string().min(1).max(MAX_CONTENT_SIZE)` — Zod `min`/`max` on strings bound
`value.length`, i.e. the UTF-16 code-unit count; the `.transform(trim)` runs
only after both checks, so the accept/reject verdict is purely a length
check.  Returns whether the content field passes. -/
def CreatePasteSchema_contentOk (content : String) : Bool :=
  if jsLength content < 1 then false
  else if jsLength content > MAX_CONTENT_SIZE then false
  else true

/-- Whether a character matches the regex class `[a-zA-Z0-9]`. -/
def isAsciiAlphanum (c : Char) : Bool :=
  ('a' ≤ c && c ≤ 'z') || ('A' ≤ c && c ≤ 'Z') || ('0' ≤ c && c ≤ '9')

/-- `validation.ts` `GetPasteParamsSchema.id`: `z.string().min(1).max(20)
.regex(/^[a-zA-Z0-9]+$/)`. -/
def GetPasteParamsSchema_idOk (id : String) : Bool :=
  if jsLength id < 1 then false
  else if jsLength id > 20 then false
  else id.data.all isAsciiAlphanum && !id.data.isEmpty

/-- The database as the list of `Paste` rows. -/
abbrev DB := List Paste

/-- `prisma.paste.findUnique({ where: { id } })`. -/
def findUnique (db : DB) (id : String) : Option Paste :=
  db.find? (fun p => p.id == id)

/-- `prisma.paste.update({ where: { id }, data })`: rewrite the row(s)
whose primary key matches `id`. -/
def updateWhere (db : DB) (id : String) (f : Paste → Paste) : DB :=
  db.map (fun p => if p.id == id then f p else p)

/-- `prisma.paste.updateMany({ where: cond, data })` /
`UPDATE … WHERE cond`: returns the affected-row count and the new table. -/
def updateMany (db : DB) (cond : Paste → Bool) (f : Paste → Paste) : Nat × DB :=
  (db.countP cond, db.map (fun p => if cond p then f p else p))

/-- `prisma.paste.deleteMany({ where: cond })`: returns the deleted-row
count and the new table. -/
def deleteMany (db : DB) (cond : Paste → Bool) : Nat × DB :=
  (db.countP cond, db.filter (fun p => !cond p))

/-- The data `POST /api/pastes` inserts (`routes/pastes.ts` lines 53–61):
id, content, language, `expiresAt` from `calculateExpiresAt`, `maxViews`.
Modelled from the spec: the Prisma schema itself is not under `src/`; per
the spec's data model, `viewCount` defaults to 0 and `isExpired` to false
at creation, and `createdAt` is set to the insertion time. -/
def newPaste (now : Int) (id content : String) (language : Option String)
    (expiresIn : Option Int) (maxViews : Option Int) : Paste :=
  { id := id
    content := content
    language := language
    createdAt := now
    expiresAt := calculateExpiresAt now expiresIn
    maxViews := maxViews
    viewCount := 0
    isExpired := false }

/-- `POST /api/pastes` effect on the table: `prisma.paste.create` inserts the
new row; a duplicate id violates the primary-key constraint, the handler's
`catch` answers 500 and the table is unchanged. -/
def createPaste (now : Int) (id content : String) (language : Option String)
    (expiresIn : Option Int) (maxViews : Option Int) (db : DB) : DB :=
  if (findUnique db id).isSome then db
  else db ++ [newPaste now id content language expiresIn maxViews]

/-- The 200-response body of `GET /api/pastes/:id`
(`routes/pastes.ts` lines 162–175). -/
structure PasteView where
  id : String
  content : String
  language : Option String
  createdAt : Int
  expiresAt : Option Int
  viewCount : Int
  maxViews : Option Int
  remainingViews : Option Int
  isExpired : Bool
deriving Repr, DecidableEq

/-- Build the response body from the row returned by the increment update. -/
def toPasteView (p : Paste) : PasteView :=
  { id := p.id
    content := p.content
    language := p.language
    createdAt := p.createdAt
    expiresAt := p.expiresAt
    viewCount := p.viewCount
    maxViews := p.maxViews
    remainingViews := calculateRemainingViews p
    isExpired := p.isExpired }

/-- Outcome of `GET /api/pastes/:id`: 400, 404, 410 (with the message of the
error envelope) or 200 (with the response body). -/
inductive FetchResult where
  | badRequest
  | notFound
  | expired (message : String)
  | success (data : PasteView)
deriving Repr, DecidableEq

/-- `GET /api/pastes/:id` (`routes/pastes.ts` lines 92–186): validate the id,
load the row, answer 404 if absent; if the evaluator says expired, persist
`isExpired` (only when not already set) and answer 410 with the derived
reason; otherwise increment `viewCount`, promote `isExpired` when the
incremented count reaches `maxViews`, and answer 200 with the incremented
row. -/
def getPasteById (now : Int) (id : String) (db : DB) : FetchResult × DB :=
  if ¬ GetPasteParamsSchema_idOk id then (.badRequest, db)
  else
    match findUnique db id with
    | none => (.notFound, db)
    | some paste =>
      if isExpired now paste then
        let db' := if paste.isExpired then db
                   else updateWhere db id (fun p => { p with isExpired := true })
        (.expired ((getExpirationReason now paste).getD "This paste has expired"), db')
      else
        let updatedPaste := { paste with viewCount := paste.viewCount + 1 }
        let db1 := updateWhere db id (fun p => { p with viewCount := p.viewCount + 1 })
        let db2 := if viewLimitReached updatedPaste
                   then updateWhere db1 id (fun p => { p with isExpired := true })
                   else db1
        (.success (toPasteView updatedPaste), db2)

/-- Outcome of `GET /api/pastes/:id/raw`: plain 404, plain 410, or the bare
content as `text/plain`. -/
inductive RawResult where
  | notFound
  | expired
  | content (body : String)
deriving Repr, DecidableEq

/-- `GET /api/pastes/:id/raw` (`routes/pastes.ts` lines 192–221): no id
validation; load the row, 404 if absent, 410 if the evaluator says expired
(without persisting anything), else increment `viewCount` (without any
threshold check) and send the content. -/
def getRawPasteById (now : Int) (id : String) (db : DB) : RawResult × DB :=
  match findUnique db id with
  | none => (.notFound, db)
  | some paste =>
    if isExpired now paste then (.expired, db)
    else
      let db1 := updateWhere db id (fun p => { p with viewCount := p.viewCount + 1 })
      (.content paste.content, db1)

/-- The `expiresAt: { lte: now }` condition of the cleanup sweep
(`routes/cleanup.ts` lines 66–68); Prisma `lte` never matches a NULL column. -/
def expiresAtLe (now : Int) (p : Paste) : Bool :=
  match p.expiresAt with
  | some t => decide (t ≤ now)
  | none => false

/-- `GET /api/cleanup` sweep (`routes/cleanup.ts` lines 60–83): first
`updateMany` sets `isExpired` where `isExpired=false ∧ expiresAt <= now`,
then the raw SQL sets it where `isExpired=false ∧ maxViews IS NOT NULL ∧
viewCount >= maxViews`; returns both affected counts and the new table. -/
def cleanupSweep (now : Int) (db : DB) : Nat × Nat × DB :=
  let r1 := updateMany db (fun p => !p.isExpired && expiresAtLe now p)
              (fun p => { p with isExpired := true })
  let r2 := updateMany r1.2 (fun p => !p.isExpired && viewLimitReached p)
              (fun p => { p with isExpired := true })
  (r1.1, r2.1, r2.2)

/-- `parseInt(req.query.retentionDays) || 7` (`routes/cleanup.ts` line 141):
an absent/non-numeric query models as `none`; `0` is falsy, so it also
falls back to the default 7. -/
def resolveRetentionDays (q : Option Int) : Int :=
  match q with
  | none => 7
  | some n => if n = 0 then 7 else n

/-- One day in milliseconds, as used to move `cutoffDate` back. -/
def dayMs : Int := 86400000

/-- `POST /api/cleanup/purge` (`routes/cleanup.ts` lines 136–176):
`deleteMany` of the rows with `isExpired=true ∧ createdAt <= cutoff` where
`cutoff = now - retentionDays` days; returns the deleted count and the table. -/
def purge (now : Int) (retentionQuery : Option Int) (db : DB) : Nat × DB :=
  let cutoff := now - resolveRetentionDays retentionQuery * dayMs
  deleteMany db (fun p => p.isExpired && decide (p.createdAt ≤ cutoff))

/-- All table-mutating entry points, for the stickiness invariant. -/
inductive Op where
  | create (now : Int) (id content : String) (language : Option String)
      (expiresIn maxViews : Option Int)
  | fetch (now : Int) (id : String)
  | raw (now : Int) (id : String)
  | sweep (now : Int)
  | purgeOp (now : Int) (retentionQuery : Option Int)

/-- The table after one operation. -/
def applyOp : Op → DB → DB
  | .create now id c l e m, db => createPaste now id c l e m db
  | .fetch now id, db => (getPasteById now id db).2
  | .raw now id, db => (getRawPasteById now id db).2
  | .sweep now, db => (cleanupSweep now db).2.2
  | .purgeOp now rq, db => (purge now rq db).2

/-- Modelled from the spec: `generatePasteId` (`utils.ts` lines 21–29) calls
the nanoid library's `customAlphabet(ALPHABET, 8)`, whose code is not under
`src/`.  Per its documented algorithm for a 55-symbol alphabet the mask is
`63`; each random byte `b` contributes `ALPHABET[b & 63]` when `b & 63` is a
valid index and is rejected otherwise, until 8 characters have been
produced.  The random byte stream is made explicit. -/
def nanoidFrom (bytes : List Nat) : String :=
  ⟨(((bytes.map (fun b => b % 64)).filter
      (fun i => i < ALPHABET.data.length)).map
      (fun i => ALPHABET.data.getD i ' ')).take ID_LENGTH⟩

section Lemmas

/-- Looking up the updated id after `updateWhere` returns the updated row,
provided the update does not change the primary key. -/
theorem findUnique_updateWhere_self (db : DB) (id : String) (f : Paste → Paste)
    (hf : ∀ p, (f p).id = p.id) :
    findUnique (updateWhere db id f) id = (findUnique db id).map f := by
  induction db with
  | nil => rfl
  | cons hd tl ih =>
    unfold findUnique updateWhere at *
    simp only [List.map_cons]
    by_cases h : hd.id = id
    · have h1 : (hd.id == id) = true := by simpa using h
      have h2 : ((f hd).id == id) = true := by simp [hf, h]
      rw [if_pos h1, List.find?_cons_of_pos (p := fun q : Paste => q.id == id) _ h2,
        List.find?_cons_of_pos (p := fun q : Paste => q.id == id) _ h1]
      rfl
    · have h1 : (hd.id == id) = false := by simpa using h
      rw [if_neg (by simp [h1]),
        List.find?_cons_of_neg (p := fun q : Paste => q.id == id) _ (by simpa using h1),
        List.find?_cons_of_neg (p := fun q : Paste => q.id == id) _ (by simpa using h1)]
      exact ih

/-- Every row of `updateWhere db id f` comes from a row of `db`, updated
exactly when its id matches. -/
theorem mem_updateWhere_src (db : DB) (id : String) (f : Paste → Paste) {q' : Paste}
    (h : q' ∈ updateWhere db id f) :
    ∃ q ∈ db, (q.id = id ∧ q' = f q) ∨ (q.id ≠ id ∧ q' = q) := by
  unfold updateWhere at h
  obtain ⟨q, hq, rfl⟩ := List.mem_map.1 h
  refine ⟨q, hq, ?_⟩
  by_cases hcase : q.id = id
  · exact Or.inl ⟨hcase, by simp [hcase]⟩
  · exact Or.inr ⟨hcase, by simp [hcase]⟩

/-- Rows whose id differs from the updated one are untouched. -/
theorem mem_updateWhere_of_ne (db : DB) (id : String) (f : Paste → Paste)
    {q : Paste} (h : q ∈ db) (hne : q.id ≠ id) : q ∈ updateWhere db id f := by
  unfold updateWhere
  exact List.mem_map.2 ⟨q, h, by simp [hne]⟩

/-- Evaluation of `GET /api/pastes/:id` on an expired row. -/
theorem getPasteById_eval_expired (now : Int) (id : String) (db : DB) (p : Paste)
    (hid : GetPasteParamsSchema_idOk id = true)
    (hfind : findUnique db id = some p)
    (hexp : isExpired now p = true) :
    getPasteById now id db =
      (.expired ((getExpirationReason now p).getD "This paste has expired"),
       if p.isExpired then db
       else updateWhere db id (fun q => { q with isExpired := true })) := by
  unfold getPasteById
  rw [if_neg (by simp [hid]), hfind]
  simp only [hexp, if_true]

/-- Evaluation of `GET /api/pastes/:id` on a live row. -/
theorem getPasteById_eval_success (now : Int) (id : String) (db : DB) (p : Paste)
    (hid : GetPasteParamsSchema_idOk id = true)
    (hfind : findUnique db id = some p)
    (hexp : isExpired now p = false) :
    getPasteById now id db =
      (.success (toPasteView { p with viewCount := p.viewCount + 1 }),
       if viewLimitReached { p with viewCount := p.viewCount + 1 } then
         updateWhere (updateWhere db id (fun q => { q with viewCount := q.viewCount + 1 })) id
           (fun q => { q with isExpired := true })
       else updateWhere db id (fun q => { q with viewCount := q.viewCount + 1 })) := by
  unfold getPasteById
  rw [if_neg (by simp [hid]), hfind]
  simp only [hexp, Bool.false_eq_true, if_false]

/-- The stored flag is clear whenever the evaluator says not expired. -/
theorem flag_false_of_not_expired {now : Int} {p : Paste}
    (h : isExpired now p = false) : p.isExpired = false := by
  unfold isExpired at h
  by_cases hf : p.isExpired = true
  · rw [hf] at h
    simp at h
  · simpa using hf

/-- Two primary-key updates in a row fuse into one composite update when the
first preserves the key. -/
theorem updateWhere_updateWhere (db : DB) (id : String) (f g : Paste → Paste)
    (hfid : ∀ p, (f p).id = p.id) :
    updateWhere (updateWhere db id f) id g = updateWhere db id (fun p => g (f p)) := by
  unfold updateWhere
  rw [List.map_map]
  refine List.map_congr_left (fun p _ => ?_)
  by_cases h : p.id = id
  · simp [h, hfid]
  · simp [h]

/-- An `updateWhere` whose update preserves the key and never clears the
expired flag keeps every flagged row's id flagged, given unique ids. -/
theorem sticky_updateWhere (db : DB) (id : String) (f : Paste → Paste)
    (hfid : ∀ p, (f p).id = p.id)
    (hfflag : ∀ p, p.isExpired = true → (f p).isExpired = true)
    {q : Paste} (hflag : q.isExpired = true)
    (huniq : ∀ x ∈ db, x.id = q.id → x = q)
    {q' : Paste} (hq' : q' ∈ updateWhere db id f) (hid : q'.id = q.id) :
    q'.isExpired = true := by
  obtain ⟨x, hx, hcase⟩ := mem_updateWhere_src db id f hq'
  rcases hcase with ⟨hxid, rfl⟩ | ⟨hxid, heq⟩
  · have hxq : x = q := huniq x hx (by rw [← hfid x]; exact hid)
    exact hfflag x (by rw [hxq]; exact hflag)
  · have hxq : x = q := huniq x hx (by rw [← heq]; exact hid)
    rw [heq, hxq]
    exact hflag

end Lemmas

section Theorems

/-- C2: the expiration evaluator returns expired iff the flag is set, or the
time limit has passed, or the view limit is reached; the reason is selected
with time-limit priority over view-limit, and the deleted fallback appears
exactly in the remaining (flag-only) case.  Both functions are pure and
depend only on `isExpired`, `expiresAt`, `viewCount`, `maxViews` (and the
current time), as the right-hand sides show. -/
theorem expiration_evaluator_spec (now : Int) (p : Paste) :
    isExpired now p = (p.isExpired || timeExpired now p || viewLimitReached p)
  ∧ getExpirationReason now p =
      (if p.isExpired || timeExpired now p || viewLimitReached p then
        some (if timeExpired now p then "This paste has expired due to time limit"
              else if viewLimitReached p then "This paste has expired due to view limit"
              else "This paste has been deleted")
       else none) := by
  have h : isExpired now p = (p.isExpired || timeExpired now p || viewLimitReached p) := by
    unfold isExpired
    cases p.isExpired <;> cases timeExpired now p <;> cases viewLimitReached p <;> simp
  refine ⟨h, ?_⟩
  unfold getExpirationReason
  rw [h]
  cases hb : (p.isExpired || timeExpired now p || viewLimitReached p) <;>
    cases ht : timeExpired now p <;> cases hv : viewLimitReached p <;>
      simp_all

/-- C1: when a non-expired paste's view count stands one below `maxViews`
(for `maxViews = 1`: a fresh paste), the fetch that reaches the limit is
itself served — 200 with the content, `viewCount = maxViews`,
`remainingViews = 0` — and the flag is promoted, so the next fetch answers
410 with the view-limit reason: the increment happens before the threshold
check. -/
theorem fetch_view_limit_increment_then_check
    (now : Int) (db : DB) (id : String) (p : Paste) (m : Int)
    (hid : GetPasteParamsSchema_idOk id = true)
    (hfind : findUnique db id = some p)
    (hm : p.maxViews = some m)
    (hvc : p.viewCount = m - 1)
    (hflag : p.isExpired = false)
    (htime : timeExpired now p = false) :
    (getPasteById now id db).1 =
      .success { id := p.id, content := p.content, language := p.language,
                 createdAt := p.createdAt, expiresAt := p.expiresAt,
                 viewCount := m, maxViews := some m, remainingViews := some 0,
                 isExpired := false }
  ∧ (getPasteById now id (getPasteById now id db).2).1 =
      .expired "This paste has expired due to view limit" := by
  have hnotexp : isExpired now p = false := by
    unfold isExpired
    rw [hflag, htime]
    unfold viewLimitReached
    rw [hm]
    simp
    omega
  have hinc : p.viewCount + 1 = m := by omega
  have hvlr : viewLimitReached { p with viewCount := p.viewCount + 1 } = true := by
    unfold viewLimitReached
    simp [hm]
    omega
  have hfetch1 : getPasteById now id db =
      (.success (toPasteView { p with viewCount := p.viewCount + 1 }),
       updateWhere (updateWhere db id (fun q => { q with viewCount := q.viewCount + 1 }))
         id (fun q => { q with isExpired := true })) := by
    unfold getPasteById
    rw [if_neg (by simp [hid]), hfind]
    simp only [hnotexp, Bool.false_eq_true, if_false, hvlr, if_true]
  have hview : toPasteView { p with viewCount := p.viewCount + 1 } =
      { id := p.id, content := p.content, language := p.language,
        createdAt := p.createdAt, expiresAt := p.expiresAt,
        viewCount := m, maxViews := some m, remainingViews := some 0,
        isExpired := false } := by
    unfold toPasteView calculateRemainingViews
    simp [hm, hinc, hflag]
  refine ⟨by rw [hfetch1, hview], ?_⟩
  have hdb2 : (getPasteById now id db).2 =
      updateWhere (updateWhere db id (fun q => { q with viewCount := q.viewCount + 1 }))
        id (fun q => { q with isExpired := true }) := by rw [hfetch1]
  rw [hdb2]
  have hfind2 : findUnique
      (updateWhere (updateWhere db id (fun q => { q with viewCount := q.viewCount + 1 }))
        id (fun q => { q with isExpired := true })) id =
      some { p with viewCount := m, isExpired := true } := by
    rw [findUnique_updateWhere_self _ _ (f := fun q : Paste => { q with isExpired := true })
        (fun q => rfl),
      findUnique_updateWhere_self _ _ (f := fun q : Paste => { q with viewCount := q.viewCount + 1 })
        (fun q => rfl), hfind]
    simp [hinc]
  have hq : isExpired now { p with viewCount := m, isExpired := true } = true := by
    unfold isExpired
    simp
  have hreason : getExpirationReason now { p with viewCount := m, isExpired := true } =
      some "This paste has expired due to view limit" := by
    unfold getExpirationReason
    rw [if_neg (by simp [hq])]
    have ht2 : timeExpired now { p with viewCount := m, isExpired := true } = false := htime
    rw [ht2]
    have hv2 : viewLimitReached { p with viewCount := m, isExpired := true } = true := by
      unfold viewLimitReached
      simp [hm]
    simp [hv2]
  unfold getPasteById
  rw [if_neg (by simp [hid]), hfind2]
  simp only [hq, if_true, hreason, Option.getD_some]

/-- C1 witness: `content="hello"`, `maxViews=1` — the first fetch answers 200
with the content, `viewCount=1`, `remainingViews=0`; the second answers 410
with the view-limit reason. -/
theorem fetch_view_limit_witness :
    (getPasteById 0 "abc12345" [⟨"abc12345", "hello", none, 0, none, some 1, 0, false⟩]).1 =
      .success { id := "abc12345", content := "hello", language := none,
                 createdAt := 0, expiresAt := none, viewCount := 1,
                 maxViews := some 1, remainingViews := some 0, isExpired := false }
  ∧ (getPasteById 0 "abc12345"
      (getPasteById 0 "abc12345" [⟨"abc12345", "hello", none, 0, none, some 1, 0, false⟩]).2).1 =
      .expired "This paste has expired due to view limit" :=
  fetch_view_limit_increment_then_check 0
    [⟨"abc12345", "hello", none, 0, none, some 1, 0, false⟩] "abc12345"
    ⟨"abc12345", "hello", none, 0, none, some 1, 0, false⟩ 1
    (by decide) (by decide) rfl (by decide) rfl rfl

/-- C3: fetching a paste the evaluator marks expired answers 410 with the
derived reason, persists `isExpired = true` (idempotently) without touching
`viewCount` or any other field, and leaves every other row unchanged; a
successful fetch stores exactly a view-count increment of 1 (plus the flag
promotion when the increment reaches `maxViews`). -/
theorem fetch_expired_persists_and_success_increments
    (now : Int) (id : String) (db : DB) (p : Paste)
    (hid : GetPasteParamsSchema_idOk id = true)
    (hfind : findUnique db id = some p) :
    (isExpired now p = true →
        (getPasteById now id db).1 =
          .expired ((getExpirationReason now p).getD "This paste has expired")
      ∧ findUnique (getPasteById now id db).2 id = some { p with isExpired := true }
      ∧ ∀ q ∈ db, q.id ≠ id → q ∈ (getPasteById now id db).2)
  ∧ (isExpired now p = false →
        (getPasteById now id db).1 =
          .success (toPasteView { p with viewCount := p.viewCount + 1 })
      ∧ findUnique (getPasteById now id db).2 id =
          some { p with
                 viewCount := p.viewCount + 1
                 isExpired := viewLimitReached { p with viewCount := p.viewCount + 1 } }
      ∧ ∀ q ∈ db, q.id ≠ id → q ∈ (getPasteById now id db).2) := by
  constructor
  · intro hexp
    rw [getPasteById_eval_expired now id db p hid hfind hexp]
    by_cases hpf : p.isExpired = true
    · have hpp : ({ p with isExpired := true } : Paste) = p := by
        cases p
        simp_all
      refine ⟨rfl, ?_, ?_⟩
      · simp only [hpf, if_true, hfind, hpp]
      · intro q hq hne
        simpa [hpf] using hq
    · have hpf' : p.isExpired = false := by simpa using hpf
      refine ⟨rfl, ?_, ?_⟩
      · simp only [hpf', Bool.false_eq_true, if_false]
        rw [findUnique_updateWhere_self _ _ (f := fun q : Paste => { q with isExpired := true })
          (fun q => rfl), hfind]
        rfl
      · intro q hq hne
        simp only [hpf', Bool.false_eq_true, if_false]
        exact mem_updateWhere_of_ne _ _ _ hq hne
  · intro hexp
    rw [getPasteById_eval_success now id db p hid hfind hexp]
    have hpf : p.isExpired = false := flag_false_of_not_expired hexp
    by_cases hv : viewLimitReached { p with viewCount := p.viewCount + 1 } = true
    · refine ⟨rfl, ?_, ?_⟩
      · simp only [hv, if_true]
        rw [findUnique_updateWhere_self _ _ (f := fun q : Paste => { q with isExpired := true })
            (fun q => rfl),
          findUnique_updateWhere_self _ _
            (f := fun q : Paste => { q with viewCount := q.viewCount + 1 })
            (fun q => rfl), hfind]
        simp [hv]
      · intro q hq hne
        simp only [hv, if_true]
        exact mem_updateWhere_of_ne _ _ _ (mem_updateWhere_of_ne _ _ _ hq hne) hne
    · have hv' : viewLimitReached { p with viewCount := p.viewCount + 1 } = false := by
        simpa using hv
      refine ⟨rfl, ?_, ?_⟩
      · simp only [hv', Bool.false_eq_true, if_false]
        rw [findUnique_updateWhere_self _ _
          (f := fun q : Paste => { q with viewCount := q.viewCount + 1 }) (fun q => rfl), hfind]
        simp [hv', hpf]
      · intro q hq hne
        simp only [hv', Bool.false_eq_true, if_false]
        exact mem_updateWhere_of_ne _ _ _ hq hne

/-- C3 witness: a time-expired paste (`expiresAt = -5`, now `0`) is reported
410 with the time-limit reason, its flag is persisted, and its view count
stays 0. -/
theorem fetch_expired_witness :
    (getPasteById 0 "deadbeef"
        [⟨"deadbeef", "secret", none, 0, some (-5), none, 0, false⟩]).1 =
      .expired "This paste has expired due to time limit"
  ∧ findUnique (getPasteById 0 "deadbeef"
        [⟨"deadbeef", "secret", none, 0, some (-5), none, 0, false⟩]).2 "deadbeef" =
      some ⟨"deadbeef", "secret", none, 0, some (-5), none, 0, true⟩ := by
  have h := (fetch_expired_persists_and_success_increments 0 "deadbeef"
    [⟨"deadbeef", "secret", none, 0, some (-5), none, 0, false⟩]
    ⟨"deadbeef", "secret", none, 0, some (-5), none, 0, false⟩
    (by decide) (by decide)).1 (by decide)
  exact ⟨h.1.trans (by decide), h.2.1.trans (by decide)⟩

/-- C4 counterexample: the raw endpoint does not share FetchAndView's
persistence.  On a time-expired paste the structured fetch persists
`isExpired = true` while the raw fetch answers 410 leaving the table
unchanged; on a paste whose increment reaches `maxViews` the structured
fetch promotes the flag while the raw fetch only increments. -/
theorem raw_fetch_counterexample :
    (getPasteById 5 "aa" [⟨"aa", "c", none, 0, some 0, none, 0, false⟩]).2 =
      [⟨"aa", "c", none, 0, some 0, none, 0, true⟩]
  ∧ getRawPasteById 5 "aa" [⟨"aa", "c", none, 0, some 0, none, 0, false⟩] =
      (.expired, [⟨"aa", "c", none, 0, some 0, none, 0, false⟩])
  ∧ (getPasteById 0 "bb" [⟨"bb", "c", none, 0, none, some 1, 0, false⟩]).2 =
      [⟨"bb", "c", none, 0, none, some 1, 1, true⟩]
  ∧ (getRawPasteById 0 "bb" [⟨"bb", "c", none, 0, none, some 1, 0, false⟩]).2 =
      [⟨"bb", "c", none, 0, none, some 1, 1, false⟩] := by decide

/-- C4 amended: for every valid id, FetchRaw takes the same
not-found/expired/success decision as FetchAndView and increments
`viewCount` by 1 on success, but differs in persistence as well as shape:
it never writes `isExpired` — neither when the evaluator marks the paste
expired nor when the increment reaches `maxViews` — and returns the bare
content or bare statuses. -/
theorem raw_fetch_same_decision_no_persistence
    (now : Int) (id : String) (db : DB)
    (hid : GetPasteParamsSchema_idOk id = true) :
    (findUnique db id = none →
        getRawPasteById now id db = (.notFound, db)
      ∧ (getPasteById now id db).1 = .notFound)
  ∧ (∀ p, findUnique db id = some p → isExpired now p = true →
        getRawPasteById now id db = (.expired, db)
      ∧ (getPasteById now id db).1 =
          .expired ((getExpirationReason now p).getD "This paste has expired"))
  ∧ (∀ p, findUnique db id = some p → isExpired now p = false →
        getRawPasteById now id db =
          (.content p.content,
           updateWhere db id (fun q => { q with viewCount := q.viewCount + 1 }))
      ∧ (getPasteById now id db).1 =
          .success (toPasteView { p with viewCount := p.viewCount + 1 }))
  ∧ (∀ q' ∈ (getRawPasteById now id db).2, ∃ q ∈ db,
        q'.id = q.id ∧ q'.isExpired = q.isExpired ∧ q'.content = q.content) := by
  refine ⟨?_, ?_, ?_, ?_⟩
  · intro hnone
    constructor
    · unfold getRawPasteById
      rw [hnone]
    · unfold getPasteById
      rw [if_neg (by simp [hid]), hnone]
  · intro p hfind hexp
    constructor
    · unfold getRawPasteById
      rw [hfind]
      simp only [hexp, if_true]
    · rw [getPasteById_eval_expired now id db p hid hfind hexp]
  · intro p hfind hexp
    constructor
    · unfold getRawPasteById
      rw [hfind]
      simp only [hexp, Bool.false_eq_true, if_false]
    · rw [getPasteById_eval_success now id db p hid hfind hexp]
  · intro q' hq'
    have hdb : (getRawPasteById now id db).2 = db ∨
        (getRawPasteById now id db).2 =
          updateWhere db id (fun q => { q with viewCount := q.viewCount + 1 }) := by
      unfold getRawPasteById
      cases hfind : findUnique db id with
      | none => exact Or.inl rfl
      | some p =>
        by_cases hexp : isExpired now p = true
        · simp only [hexp, if_true]
          exact Or.inl trivial
        · simp only [(by simpa using hexp : isExpired now p = false), Bool.false_eq_true, if_false]
          exact Or.inr trivial
    rcases hdb with hdb | hdb
    · rw [hdb] at hq'
      exact ⟨q', hq', rfl, rfl, rfl⟩
    · rw [hdb] at hq'
      obtain ⟨q, hq, hcase⟩ := mem_updateWhere_src _ _ _ hq'
      rcases hcase with ⟨_, rfl⟩ | ⟨_, heq⟩
      · exact ⟨q, hq, rfl, rfl, rfl⟩
      · exact ⟨q, hq, by rw [heq], by rw [heq], by rw [heq]⟩

/-- C4 witness: a live paste with no limits, fetched raw, returns its content
and the incremented table, matching the structured fetch's success decision. -/
theorem raw_fetch_witness :
    getRawPasteById 0 "cc" [⟨"cc", "body", none, 0, none, none, 3, false⟩] =
      (.content "body", [⟨"cc", "body", none, 0, none, none, 4, false⟩])
  ∧ (getPasteById 0 "cc" [⟨"cc", "body", none, 0, none, none, 3, false⟩]).1 =
      .success (toPasteView ⟨"cc", "body", none, 0, none, none, 4, false⟩) := by
  have h := (raw_fetch_same_decision_no_persistence 0 "cc"
      [⟨"cc", "body", none, 0, none, none, 3, false⟩] (by decide)).2.2.1
    ⟨"cc", "body", none, 0, none, none, 3, false⟩ (by decide) (by decide)
  exact ⟨h.1.trans (by decide), h.2⟩

/-- C10: the raw endpoint validates nothing about the id's shape: for every
id — including `"../etc"` — it looks the id up directly, answers plain 404
when no row matches, and only ever answers 404, 410 or the content; the
structured endpoint instead rejects `"../etc"` with a 400 validation error. -/
theorem raw_no_id_validation (now : Int) (id : String) (db : DB) :
    (findUnique db id = none → getRawPasteById now id db = (.notFound, db))
  ∧ ((getRawPasteById now id db).1 = .notFound ∨ (getRawPasteById now id db).1 = .expired
      ∨ ∃ c, (getRawPasteById now id db).1 = .content c)
  ∧ GetPasteParamsSchema_idOk "../etc" = false
  ∧ (getPasteById now "../etc" db).1 = .badRequest := by
  refine ⟨?_, ?_, by decide, ?_⟩
  · intro hnone
    unfold getRawPasteById
    rw [hnone]
  · unfold getRawPasteById
    cases hfind : findUnique db id with
    | none => exact Or.inl rfl
    | some p =>
      by_cases hexp : isExpired now p = true
      · simp only [hexp, if_true]
        exact Or.inr (Or.inl trivial)
      · simp only [(by simpa using hexp : isExpired now p = false), Bool.false_eq_true, if_false]
        exact Or.inr (Or.inr ⟨p.content, rfl⟩)
  · unfold getPasteById
    rw [if_pos (by decide)]

/-- C10 witness: on an empty table, `"../etc"` gets a plain 404 from the raw
endpoint and a 400 validation error from the structured one. -/
theorem raw_no_id_validation_witness :
    getRawPasteById 0 "../etc" [] = (.notFound, [])
  ∧ (getPasteById 0 "../etc" []).1 = .badRequest := by
  have h := raw_no_id_validation 0 "../etc" []
  exact ⟨h.1 rfl, h.2.2.2⟩

/-- C5 counterexample: a single space is whitespace-only (so the claim says
content validation rejects it), yet the creation request's content
validation — the Zod schema, the only check on the creation path — accepts
it; the repo's `validateContent` helper, which does implement the claimed
rule, rejects it but is never invoked by any route. -/
theorem content_validation_counterexample :
    CreatePasteSchema_contentOk " " = true
  ∧ jsTrim " " = ""
  ∧ validateContent " " = false := by decide

/-- C5 amended: the creation request's content validation accepts content
iff its UTF-16 length is between 1 and 512000 — so whitespace-only content
passes (and is only trimmed afterwards) and the bound counts code units,
not encoded bytes; the standalone `validateContent` helper implements the
spec's rule (non-empty after trimming, UTF-8 byte size ≤ 500 KiB,
500 KiB exactly accepted) but is not called on the creation path. -/
theorem content_validation_amended (s : String) :
    CreatePasteSchema_contentOk s =
      (decide (1 ≤ jsLength s) && decide (jsLength s ≤ MAX_CONTENT_SIZE))
  ∧ validateContent s =
      (decide ((jsTrim s).data ≠ []) && decide (byteSize s ≤ MAX_CONTENT_SIZE)) := by
  constructor
  · unfold CreatePasteSchema_contentOk
    by_cases h1 : jsLength s < 1
    · rw [if_pos h1]
      have h0 : jsLength s = 0 := by omega
      simp [h0]
    · by_cases h2 : jsLength s > MAX_CONTENT_SIZE
      · rw [if_neg h1, if_pos h2]
        have ha : ¬ jsLength s ≤ MAX_CONTENT_SIZE := by omega
        simp [ha]
      · rw [if_neg h1, if_neg h2]
        have ha : 1 ≤ jsLength s := by omega
        have hb : jsLength s ≤ MAX_CONTENT_SIZE := by omega
        simp [ha, hb]
  · unfold validateContent
    by_cases hT : (jsTrim s).data = []
    · rw [if_pos (by simp [hT])]
      simp [hT]
    · have hs : ¬ s = "" := by
        intro h
        apply hT
        rw [h]
        rfl
      have hlen : ¬ (jsTrim s).length = 0 := by
        intro h
        exact hT (List.length_eq_zero.mp h)
      rw [if_neg (by simp [hs, hlen])]
      by_cases hB : byteSize s > MAX_CONTENT_SIZE
      · rw [if_pos (by simpa using hB)]
        have ha : ¬ byteSize s ≤ MAX_CONTENT_SIZE := by omega
        simp [ha]
      · rw [if_neg (by simpa using hB)]
        have ha : byteSize s ≤ MAX_CONTENT_SIZE := by omega
        simp [hT, ha]

/-- C6: the sweep sets `isExpired = true` for exactly the rows with
`isExpired = false` and (`expiresAt <= now` or `maxViews` reached), changing
nothing else; the reported counts are the time-expired category and the
view-expired category (rows matching both are counted once, as
time-expired); an immediate re-run affects zero rows. -/
theorem cleanup_sweep_spec (now : Int) (db : DB) :
    (cleanupSweep now db).2.2 = db.map (fun p =>
        if !p.isExpired && (expiresAtLe now p || viewLimitReached p)
        then { p with isExpired := true } else p)
  ∧ (cleanupSweep now db).1 = db.countP (fun p => !p.isExpired && expiresAtLe now p)
  ∧ (cleanupSweep now db).2.1 =
      db.countP (fun p => !p.isExpired && !expiresAtLe now p && viewLimitReached p)
  ∧ cleanupSweep now (cleanupSweep now db).2.2 = (0, 0, (cleanupSweep now db).2.2) := by
  have hstep : ∀ p : Paste,
      (fun q => if !q.isExpired && viewLimitReached q then
          ({ q with isExpired := true } : Paste) else q)
        ((fun q => if !q.isExpired && expiresAtLe now q then
          ({ q with isExpired := true } : Paste) else q) p) =
      (if !p.isExpired && (expiresAtLe now p || viewLimitReached p)
        then { p with isExpired := true } else p) := by
    intro p
    by_cases h1 : p.isExpired
    · simp [h1]
    · by_cases h2 : expiresAtLe now p
      · simp [h1, h2]
      · by_cases h3 : viewLimitReached p
        · simp [h1, h2, h3]
        · simp [h1, h2, h3]
  have hmain : (cleanupSweep now db).2.2 = db.map (fun p =>
      if !p.isExpired && (expiresAtLe now p || viewLimitReached p)
      then { p with isExpired := true } else p) := by
    unfold cleanupSweep updateMany
    simp only [List.map_map]
    exact List.map_congr_left (fun p _ => hstep p)
  refine ⟨hmain, rfl, ?_, ?_⟩
  · show ((db.map fun p =>
        if !p.isExpired && expiresAtLe now p then { p with isExpired := true } else p).countP
        (fun p => !p.isExpired && viewLimitReached p)) = _
    rw [List.countP_map]
    refine List.countP_congr (fun p _ => ?_)
    by_cases h1 : p.isExpired
    · simp [h1]
    · by_cases h2 : expiresAtLe now p
      · simp [h1, h2]
      · by_cases h3 : viewLimitReached p
        · simp [h1, h2, h3]
        · simp [h1, h2, h3]
  · rw [hmain]
    have hafter : ∀ q ∈ db.map (fun p =>
        if !p.isExpired && (expiresAtLe now p || viewLimitReached p)
        then { p with isExpired := true } else p),
        (!q.isExpired && expiresAtLe now q) = false
      ∧ (!q.isExpired && viewLimitReached q) = false := by
      intro q hq
      obtain ⟨p, _, rfl⟩ := List.mem_map.1 hq
      by_cases h1 : p.isExpired
      · simp [h1]
      · by_cases h2 : expiresAtLe now p
        · simp [h1, h2]
        · by_cases h3 : viewLimitReached p
          · simp [h1, h2, h3]
          · simp [h1, h2, h3]
    set D := db.map (fun p =>
        if !p.isExpired && (expiresAtLe now p || viewLimitReached p)
        then { p with isExpired := true } else p) with hDdef
    have hid1 : D.map (fun p =>
        if !p.isExpired && expiresAtLe now p then
          ({ p with isExpired := true } : Paste) else p) = D := by
      rw [List.map_congr_left (g := id) (fun p hp => by simp [(hafter p hp).1]),
        List.map_id]
    unfold cleanupSweep updateMany
    simp only [hid1]
    refine Prod.ext ?_ (Prod.ext ?_ ?_)
    · simp only [List.countP_eq_zero]
      intro q hq
      simp [(hafter q hq).1]
    · simp only [List.countP_eq_zero]
      intro q hq
      simp [(hafter q hq).2]
    · show D.map (fun p =>
        if !p.isExpired && viewLimitReached p then
          ({ p with isExpired := true } : Paste) else p) = D
      rw [List.map_congr_left (g := id) (fun p hp => by simp [(hafter p hp).2]),
        List.map_id]

/-- Rows matching a condition plus rows kept by its complement make up the
whole table. -/
theorem countP_add_length_filter_not (l : List Paste) (c : Paste → Bool) :
    l.countP c + (l.filter (fun p => !c p)).length = l.length := by
  induction l with
  | nil => rfl
  | cons hd tl ih =>
    by_cases h : c hd = true
    · simp [List.countP_cons, List.filter_cons, h]
      omega
    · simp [List.countP_cons, List.filter_cons, h]
      omega

/-- C7: purge deletes exactly the rows with `isExpired = true` and
`createdAt` at or before `now` minus the retention period (default 7 days:
an absent query parameter behaves as 7), returns the deleted count, never
deletes an unexpired row however old, and keeps every other row unchanged
(the surviving table is a sublist of the original). -/
theorem purge_spec (now : Int) (rq : Option Int) (db : DB) :
    (∀ p ∈ db, (p ∈ (purge now rq db).2 ↔
        ¬(p.isExpired = true ∧ p.createdAt ≤ now - resolveRetentionDays rq * dayMs)))
  ∧ (∀ p ∈ db, p.isExpired = false → p ∈ (purge now rq db).2)
  ∧ (purge now rq db).1 + (purge now rq db).2.length = db.length
  ∧ (purge now rq db).2.Sublist db
  ∧ purge now none db = purge now (some 7) db := by
  have hmem : ∀ p ∈ db, (p ∈ (purge now rq db).2 ↔
      ¬(p.isExpired = true ∧ p.createdAt ≤ now - resolveRetentionDays rq * dayMs)) := by
    intro p hp
    unfold purge deleteMany
    cases hb : p.isExpired <;> simp [List.mem_filter, hp, hb]
  refine ⟨hmem, ?_, ?_, ?_, ?_⟩
  · intro p hp hflag
    exact (hmem p hp).mpr (by simp [hflag])
  · unfold purge deleteMany
    exact countP_add_length_filter_not db _
  · unfold purge deleteMany
    exact List.filter_sublist db
  · have h7 : resolveRetentionDays none = resolveRetentionDays (some 7) := by
      norm_num [resolveRetentionDays]
    unfold purge
    rw [h7]

/-- C7 witness: with two old rows — one expired, one not — purge deletes
exactly the expired one, reports count 1, and keeps the unexpired row. -/
theorem purge_witness :
    (⟨"old1", "x", none, -700 * dayMs, none, none, 0, false⟩ : Paste) ∈
      (purge 0 none [⟨"old1", "x", none, -700 * dayMs, none, none, 0, false⟩,
                     ⟨"old2", "y", none, -700 * dayMs, none, none, 0, true⟩]).2
  ∧ ¬ (⟨"old2", "y", none, -700 * dayMs, none, none, 0, true⟩ : Paste) ∈
      (purge 0 none [⟨"old1", "x", none, -700 * dayMs, none, none, 0, false⟩,
                     ⟨"old2", "y", none, -700 * dayMs, none, none, 0, true⟩]).2
  ∧ (purge 0 none [⟨"old1", "x", none, -700 * dayMs, none, none, 0, false⟩,
                   ⟨"old2", "y", none, -700 * dayMs, none, none, 0, true⟩]).1 +
      (purge 0 none [⟨"old1", "x", none, -700 * dayMs, none, none, 0, false⟩,
                     ⟨"old2", "y", none, -700 * dayMs, none, none, 0, true⟩]).2.length = 2 := by
  have h := purge_spec 0 none
    [⟨"old1", "x", none, -700 * dayMs, none, none, 0, false⟩,
     ⟨"old2", "y", none, -700 * dayMs, none, none, 0, true⟩]
  refine ⟨h.2.1 _ (by simp) rfl, ?_, h.2.2.1⟩
  intro hmem
  have := (h.1 _ (by simp)).mp hmem
  exact this ⟨rfl, by norm_num [dayMs, resolveRetentionDays]⟩

/-- C8: `isExpired` is sticky.  A freshly created row has `isExpired = false`
(and `viewCount = 0`); and for every operation — create, fetch, raw fetch,
sweep, purge — a row flagged `isExpired = true` in a table with unique ids
never appears unflagged afterwards: any surviving row with its id is still
flagged. -/
theorem isExpired_sticky (op : Op) (db : DB)
    (hnodup : (db.map Paste.id).Nodup) :
    (∀ q ∈ db, q.isExpired = true →
       ∀ q' ∈ applyOp op db, q'.id = q.id → q'.isExpired = true)
  ∧ (∀ now id c l e m, findUnique db id = none →
       applyOp (.create now id c l e m) db = db ++ [newPaste now id c l e m])
  ∧ (∀ now id c l e m, (newPaste now id c l e m).isExpired = false
       ∧ (newPaste now id c l e m).viewCount = 0) := by
  refine ⟨?_, ?_, fun now id c l e m => ⟨rfl, rfl⟩⟩
  · intro q hq hqflag q' hq' hid'
    have huniq : ∀ x ∈ db, x.id = q.id → x = q := fun x hx hxe =>
      List.inj_on_of_nodup_map hnodup hx hq hxe
    cases op with
    | create now id c l e m =>
      simp only [applyOp] at hq'
      unfold createPaste at hq'
      by_cases hfind : (findUnique db id).isSome = true
      · rw [if_pos hfind] at hq'
        rw [huniq q' hq' hid']
        exact hqflag
      · rw [if_neg hfind] at hq'
        rcases List.mem_append.1 hq' with hmem | hmem
        · rw [huniq q' hmem hid']
          exact hqflag
        · exfalso
          have hnew : q' = newPaste now id c l e m := by simpa using hmem
          have hidq : q.id = id := by
            rw [← hid', hnew]
            simp [newPaste]
          have hnone : findUnique db id = none := by
            cases hopt : findUnique db id with
            | none => rfl
            | some r => rw [hopt] at hfind; simp at hfind
          have := List.find?_eq_none.1 hnone q hq
          simp [hidq] at this
    | fetch now id =>
      have h2 : (getPasteById now id db).2 = db ∨
          ∃ f : Paste → Paste, (∀ r, (f r).id = r.id) ∧
            (∀ r, r.isExpired = true → (f r).isExpired = true) ∧
            (getPasteById now id db).2 = updateWhere db id f := by
        by_cases hidok : GetPasteParamsSchema_idOk id = true
        · cases hfind : findUnique db id with
          | none =>
            left
            unfold getPasteById
            rw [if_neg (by simp [hidok]), hfind]
          | some p =>
            by_cases hexp : isExpired now p = true
            · rw [getPasteById_eval_expired now id db p hidok hfind hexp]
              by_cases hpf : p.isExpired = true
              · left
                simp [hpf]
              · right
                refine ⟨fun r => { r with isExpired := true },
                  fun r => rfl, fun r h => rfl, ?_⟩
                simp [hpf]
            · have hexp' : isExpired now p = false := by simpa using hexp
              rw [getPasteById_eval_success now id db p hidok hfind hexp']
              by_cases hv : viewLimitReached { p with viewCount := p.viewCount + 1 } = true
              · right
                refine ⟨fun r => { r with viewCount := r.viewCount + 1, isExpired := true },
                  fun r => rfl, fun r h => rfl, ?_⟩
                simp only [hv, if_true]
                exact updateWhere_updateWhere db id _ _ (fun r => rfl)
              · right
                refine ⟨fun r => { r with viewCount := r.viewCount + 1 },
                  fun r => rfl, fun r h => h, ?_⟩
                simp [hv]
        · left
          unfold getPasteById
          rw [if_pos (by simp [hidok])]
      simp only [applyOp] at hq'
      rcases h2 with h2 | ⟨f, hfid, hfflag, h2⟩
      · rw [h2] at hq'
        rw [huniq q' hq' hid']
        exact hqflag
      · rw [h2] at hq'
        exact sticky_updateWhere db id f hfid hfflag hqflag huniq hq' hid'
    | raw now id =>
      have h2 : (getRawPasteById now id db).2 = db ∨
          (getRawPasteById now id db).2 =
            updateWhere db id (fun r => { r with viewCount := r.viewCount + 1 }) := by
        unfold getRawPasteById
        cases hfind : findUnique db id with
        | none => exact Or.inl rfl
        | some p =>
          by_cases hexp : isExpired now p = true
          · simp only [hexp, if_true]
            exact Or.inl trivial
          · simp only [(by simpa using hexp : isExpired now p = false),
              Bool.false_eq_true, if_false]
            exact Or.inr trivial
      simp only [applyOp] at hq'
      rcases h2 with h2 | h2
      · rw [h2] at hq'
        rw [huniq q' hq' hid']
        exact hqflag
      · rw [h2] at hq'
        exact sticky_updateWhere db id
          (fun r => { r with viewCount := r.viewCount + 1 })
          (fun r => rfl) (fun r h => h) hqflag huniq hq' hid'
    | sweep now =>
      simp only [applyOp] at hq'
      unfold cleanupSweep updateMany at hq'
      simp only [List.map_map] at hq'
      obtain ⟨x, hx, rfl⟩ := List.mem_map.1 hq'
      by_cases h1 : x.isExpired = true
      · have hxq : x = q := huniq x hx (by simpa [h1] using hid')
        simp [hxq, hqflag]
      · by_cases h2 : expiresAtLe now x = true
        · simp [h1, h2]
        · by_cases h3 : viewLimitReached x = true
          · simp [h1, h2, h3]
          · have hxq : x = q := huniq x hx (by simpa [h1, h2, h3] using hid')
            rw [hxq] at h1
            exact absurd hqflag h1
    | purgeOp now rq =>
      simp only [applyOp] at hq'
      unfold purge deleteMany at hq'
      have hmem := (List.mem_filter.1 hq').1
      rw [huniq q' hmem hid']
      exact hqflag
  · intro now id c l e m hfind
    simp [applyOp, createPaste, hfind]

/-- C8 witness: creating a fresh id next to an already-flagged row appends an
unflagged new row and leaves the flagged row alone. -/
theorem isExpired_sticky_witness :
    applyOp (.create 5 "newid1" "hi" none none none)
        [⟨"qq", "x", none, 0, some 0, none, 0, true⟩] =
      [⟨"qq", "x", none, 0, some 0, none, 0, true⟩] ++
        [newPaste 5 "newid1" "hi" none none none]
  ∧ (newPaste 5 "newid1" "hi" none none none).isExpired = false := by
  have h := isExpired_sticky (.create 5 "newid1" "hi" none none none)
    [⟨"qq", "x", none, 0, some 0, none, 0, true⟩] (by decide)
  exact ⟨h.2.1 5 "newid1" "hi" none none none (by decide),
    (h.2.2 5 "newid1" "hi" none none none).1⟩

/-- C9 counterexample: the implemented alphabet has 55 symbols, not 54, and
also excludes lowercase `i` and `o` (not just `l`), while keeping uppercase
`L`; so the claimed 54-symbol alphabet (digits 2–9, uppercase minus O/I,
lowercase minus l only) does not describe the code. -/
theorem generatePasteId_alphabet_counterexample :
    ALPHABET.data.length = 55
  ∧ ¬ ALPHABET.data.length = 54
  ∧ ¬ 'i' ∈ ALPHABET.data
  ∧ ¬ 'o' ∈ ALPHABET.data
  ∧ 'L' ∈ ALPHABET.data := by decide

/-- C9 amended: every output of the ID generator is a string of up to —
and, once 8 bytes survive rejection, exactly — 8 characters, each drawn
from the 55-symbol alphabet of digits 2–9, uppercase letters excluding I/O
and lowercase letters excluding i/l/o; the masked rejection sampling gives
every alphabet position exactly 4 of the 256 byte values (so characters are
uniform, and independent, when the underlying bytes are), and the alphabet
has no duplicate symbols. -/
theorem generatePasteId_spec (bytes : List Nat) :
    (nanoidFrom bytes).data.length ≤ ID_LENGTH
  ∧ (∀ ch ∈ (nanoidFrom bytes).data, ch ∈ ALPHABET.data)
  ∧ (ID_LENGTH ≤ ((bytes.map (fun b => b % 64)).filter
        (fun i => i < ALPHABET.data.length)).length →
      (nanoidFrom bytes).data.length = ID_LENGTH)
  ∧ ((List.range 55).all (fun j =>
        ((List.range 256).filter (fun b => b % 64 == j)).length == 4)) = true
  ∧ ALPHABET.data.Nodup := by
  refine ⟨?_, ?_, ?_, by decide, by decide⟩
  · unfold nanoidFrom
    simp [List.length_take]
  · intro ch hch
    unfold nanoidFrom at hch
    have hch' := List.mem_of_mem_take hch
    obtain ⟨i, hi, rfl⟩ := List.mem_map.1 hch'
    have hilt : i < ALPHABET.data.length := by
      have := (List.mem_filter.1 hi).2
      simpa using this
    rw [List.getD_eq_getElem ALPHABET.data ' ' hilt]
    exact List.getElem_mem hilt
  · intro hlen
    unfold nanoidFrom
    simp only [List.length_take, List.length_map]
    omega

/-- C9 witness: eight accepted bytes produce a full-length, 8-character id. -/
theorem generatePasteId_witness :
    (nanoidFrom [0, 1, 2, 3, 4, 5, 6, 7]).data.length = ID_LENGTH :=
  (generatePasteId_spec [0, 1, 2, 3, 4, 5, 6, 7]).2.2.1 (by decide)

end Theorems

end Pastebin
